import Mathlib

/-!
Shallow embedding of the multi-key Gemini API client core of this repository:
the KeyManager credential pool, the substring-based failure classification,
the inner rate-limit retry loop (withRateLimitHandling), the outer
key-rotation loop (executeWithKeyRotation) and the model fallback logic of
callModel.

Modelling conventions:
- the network operation is an oracle from the invocation counter to a
  result (Except String R, errors carry the message text);
- Math.random is split into two explicit oracles: a natural-number draw
  used for the one-time random initialization of the active key index
  (Math.floor(Math.random() * keys.length) is modelled as r % keys.length,
  which ranges over exactly the same values), and a rational jitter stream
  jit : Nat -> Rat with values in [0, 1);
- setTimeout delays are recorded as a list of waited durations (in ms)
  instead of sleeping;
- the loops of the source are for-loops with an attempt counter and a
  fixed bound; they are embedded structurally with a fuel argument that
  equals (bound + 1 - attempt) at every call site, so the recursion mirrors
  the loop iteration exactly while staying kernel-computable.
-/

namespace MFC

/-- Character-level test that the first list is an initial segment of the
second (models JavaScript String.prototype.startsWith). -/
def startsList : List Char → List Char → Bool
  | [], _ => true
  | _ :: _, [] => false
  | p :: ps, c :: cs => p == c && startsList ps cs

/-- Character-level substring occurrence test (models
JavaScript String.prototype.includes). -/
def listHasSub (pat : List Char) : List Char → Bool
  | [] => pat.isEmpty
  | c :: rest => startsList pat (c :: rest) || listHasSub pat rest

/-- s.includes(pat) on Lean strings. -/
def strContains (s pat : String) : Bool := listHasSub pat.data s.data

/-- s.toLowerCase(); the source only compares ASCII text. -/
def lowerStr (s : String) : String := ⟨s.data.map Char.toLower⟩

/-- Models the filter predicate of loadKeys (k.trim() is not the empty
string): the key holds at least one non-whitespace character. -/
def nonBlank (s : String) : Bool := s.data.any (fun c => !c.isWhitespace)

/-- Mutable state of the KeyManager object: the credential pool, the active
index and the once-per-process initialization flag. -/
structure KMState where
  keys : List String
  currentIndex : ℕ
  initialized : Bool
deriving DecidableEq

/-- External configuration read by loadKeys:
- stored: the value of localStorage gemini_api_keys; none when absent or a
  falsy (empty) string, some none when present but not parseable as a JSON
  array, some (some l) when it parses to the array l;
- legacyLocal: the value of localStorage gemini_api_key (none when null);
- envKey: process.env.API_KEY (none when undefined). -/
structure Config where
  stored : Option (Option (List String))
  legacyLocal : Option String
  envKey : Option String
deriving DecidableEq

/-- JavaScript truthiness of a nullable string: null/undefined and the empty
string are falsy. -/
def truthy : Option String → Bool
  | none => false
  | some s => !(s == "")

/-- The key list computed by loadKeys from the configuration: the parsed
stored list with blank entries filtered out, then the legacy single key
(localStorage gemini_api_key falling back to process.env.API_KEY via the
JavaScript or-operator), then process.env.API_KEY. -/
def newKeysOf (cfg : Config) : List String :=
  let fromStored : List String :=
    match cfg.stored with
    | some (some l) => l.filter nonBlank
    | some none => []
    | none => []
  let legacyKey : Option String :=
    if truthy cfg.legacyLocal then cfg.legacyLocal else cfg.envKey
  let k1 : List String :=
    if fromStored.length = 0 ∧ truthy legacyKey = true then [legacyKey.getD ""]
    else fromStored
  if k1.length = 0 ∧ truthy cfg.envKey = true then [cfg.envKey.getD ""] else k1

/-- KeyManager.loadKeys. The natural number r is the random draw for the
one-time index initialization: Math.floor(Math.random() * keys.length) is a
uniform value in [0, keys.length), modelled as r % keys.length. -/
def loadKeys (r : ℕ) (cfg : Config) (s : KMState) : KMState :=
  if s.initialized = false ∧ 0 < (newKeysOf cfg).length then
    { keys := newKeysOf cfg, currentIndex := r % (newKeysOf cfg).length,
      initialized := true }
  else if 0 < (newKeysOf cfg).length then
    { keys := newKeysOf cfg,
      currentIndex :=
        if (newKeysOf cfg).length ≤ s.currentIndex then 0 else s.currentIndex,
      initialized := s.initialized }
  else
    { keys := newKeysOf cfg, currentIndex := s.currentIndex,
      initialized := s.initialized }

/-- The configuration error thrown by KeyManager.getCurrentKey on an empty
pool. -/
def keyNotFoundMsg : String :=
  "Gemini API key not found. Please add keys in the settings modal (gear icon)."

/-- KeyManager.getCurrentKey: reloads the pool, then either fails with the
configuration error or returns the active key together with the reloaded
state. -/
def getCurrentKey (r : ℕ) (cfg : Config) (s : KMState) :
    Except String (String × KMState) :=
  let s1 := loadKeys r cfg s
  if s1.keys.length = 0 then .error keyNotFoundMsg
  else .ok (s1.keys.getD s1.currentIndex "", s1)

/-- KeyManager.rotate: advances the active index modulo the pool size and
reports whether an advance happened; a pool of at most one key is left
untouched. -/
def rotate (s : KMState) : Bool × KMState :=
  if s.keys.length ≤ 1 then (false, s)
  else (true, { s with currentIndex := (s.currentIndex + 1) % s.keys.length })

/-- isRotationTrigger from the source: substring classification of the
lowercased error message. -/
def isRotationTrigger (msg : String) : Bool :=
  let m := lowerStr msg
  strContains m "429" || strContains m "quota" || strContains m "limit" ||
  strContains m "exhausted" || strContains m "403" ||
  strContains m "permission denied" || strContains m "suspended" ||
  strContains m "consumer"

/-- The hard-quota check at the top of the catch block of
withRateLimitHandling: the lowercased message mentions a zero limit or a
quota-exceeded-for-metric failure. -/
def isHardQuotaZero (msg : String) : Bool :=
  let m := lowerStr msg
  strContains m "limit: 0" || strContains m "quota exceeded for metric"

/-- Backoff duration (ms) for a rotation-trigger failure when waiting is the
only option: 8000 + Math.random() * 4000. -/
def rotationBackoff (j : ℚ) : ℚ := 8000 + j * 4000

/-- Backoff duration (ms) for a transient failure at a given inner attempt:
Math.pow(2, attempt) * 1000 + Math.random() * 500. -/
def transientBackoff (attempt : ℕ) (j : ℚ) : ℚ :=
  2 ^ attempt * 1000 + j * 500

/-- Prefix of the error thrown for a hard-quota failure by the inner loop. -/
def hqWrapPrefix : String :=
  "API Quota Exceeded (Limit: 0) or Model Unavailable: "

/-- Prefix of the error thrown when the inner retry budget is exhausted on a
rotation-trigger failure. -/
def innerExhaustPrefix : String := "Quota Exceeded or Key Suspended: "

/-- Prefix of the terminal error thrown on the last outer attempt for a
rotation-trigger failure. -/
def allExhaustPrefix : String :=
  "All Gemini API Keys exhausted (Quota/Suspended). Last error: "

/-- Terminal error thrown when the outer rotation loop runs out of attempts. -/
def exhaustedLoopMsg : String :=
  "All Gemini API Keys exhausted (Rotation loop ended without success)."

/-- Unreachable error after the inner loop (kept for faithfulness). -/
def innerFailMsg : String := "API call failed after internal retries."

instance exceptDecEq {ε α : Type} [DecidableEq ε] [DecidableEq α] :
    DecidableEq (Except ε α) := fun x y =>
  match x, y with
  | .ok a, .ok b =>
    if h : a = b then .isTrue (by rw [h])
    else .isFalse (fun hc => h (by injection hc))
  | .error a, .error b =>
    if h : a = b then .isTrue (by rw [h])
    else .isFalse (fun hc => h (by injection hc))
  | .ok _, .error _ => .isFalse (fun hc => Except.noConfusion hc)
  | .error _, .ok _ => .isFalse (fun hc => Except.noConfusion hc)

/-- MAX_RETRIES of withRateLimitHandling. -/
def MAX_RETRIES : ℕ := 5

/-- Outcome of one run of the inner retry loop: the result, the next value
of the operation-invocation counter and of the jitter-stream counter, and
the backoff waits performed (in order, in ms). -/
structure InnerOut (R : Type) where
  res : Except String R
  ci : ℕ
  ji : ℕ
  waits : List ℚ
deriving DecidableEq

/-- Body of the retry loop of withRateLimitHandling. fuel equals
MAX_RETRIES + 1 - attempt at every call site, so fuel 0 is exactly the loop
exit (which throws the unreachable terminal error). nkeys is the live
KeyManager pool size read by the hasBackupKeys check. -/
def innerGo (op : ℕ → Except String R) (jit : ℕ → ℚ) (nkeys : ℕ) :
    ℕ → ℕ → ℕ → ℕ → InnerOut R
  | 0, _, ci, ji => ⟨.error innerFailMsg, ci, ji, []⟩
  | fuel + 1, attempt, ci, ji =>
    match op ci with
    | .ok v => ⟨.ok v, ci + 1, ji, []⟩
    | .error msg =>
      let m := lowerStr msg
      if isHardQuotaZero msg then
        ⟨.error (hqWrapPrefix ++ m), ci + 1, ji, []⟩
      else if isRotationTrigger msg ∧ 1 < nkeys then
        ⟨.error msg, ci + 1, ji, []⟩
      else if attempt = MAX_RETRIES then
        if isRotationTrigger msg then
          ⟨.error (innerExhaustPrefix ++ m), ci + 1, ji, []⟩
        else ⟨.error msg, ci + 1, ji, []⟩
      else
        let w := if isRotationTrigger msg then rotationBackoff (jit ji)
                 else transientBackoff attempt (jit ji)
        let rest := innerGo op jit nkeys fuel (attempt + 1) (ci + 1) (ji + 1)
        ⟨rest.res, rest.ci, rest.ji, w :: rest.waits⟩

/-- withRateLimitHandling: the inner retry loop started at attempt 1 with
its full budget of MAX_RETRIES attempts. -/
def withRateLimitHandling (op : ℕ → Except String R) (jit : ℕ → ℚ)
    (nkeys ci ji : ℕ) : InnerOut R :=
  innerGo op jit nkeys MAX_RETRIES 1 ci ji

/-- Outcome of the outer rotation loop: result, final KeyManager state, next
operation and jitter counters, number of outer attempts entered, number of
rotations performed, and all waits (inner backoffs and the 10000 ms rotation
cooldowns) in order. -/
structure OuterOut (R : Type) where
  res : Except String R
  km : KMState
  ci : ℕ
  ji : ℕ
  outerAttempts : ℕ
  rotations : ℕ
  waits : List ℚ
deriving DecidableEq

/-- Body of the for-loop of executeWithKeyRotation. fuel equals
maxAttempts - attempt at every call site; fuel 0 is the loop exit, which
throws the fixed rotation-loop-ended error. Each iteration re-reads the
pool (getAiClient calls getCurrentKey, which calls loadKeys), runs the
inner loop, and on failure either rotates and waits 10000 ms or rethrows,
adding the terminal all-keys-exhausted wrapper on the last attempt when the
failure is a rotation trigger. -/
def outerGo (op : ℕ → Except String R) (jit : ℕ → ℚ) (r : ℕ) (cfg : Config)
    (maxAttempts : ℕ) : ℕ → ℕ → KMState → ℕ → ℕ → OuterOut R
  | 0, _, s, ci, ji => ⟨.error exhaustedLoopMsg, s, ci, ji, 0, 0, []⟩
  | fuel + 1, attempt, s, ci, ji =>
    let s1 := loadKeys r cfg s
    let inner : InnerOut R :=
      if s1.keys.length = 0 then ⟨.error keyNotFoundMsg, ci, ji, []⟩
      else withRateLimitHandling op jit s1.keys.length ci ji
    match inner.res with
    | .ok v => ⟨.ok v, s1, inner.ci, inner.ji, 1, 0, inner.waits⟩
    | .error msg =>
      let m := lowerStr msg
      if isRotationTrigger msg ∧ 1 < s1.keys.length then
        let s2 := (rotate s1).2
        let rest := outerGo op jit r cfg maxAttempts fuel (attempt + 1) s2 inner.ci inner.ji
        ⟨rest.res, rest.km, rest.ci, rest.ji, rest.outerAttempts + 1,
          rest.rotations + 1, inner.waits ++ 10000 :: rest.waits⟩
      else if attempt = maxAttempts - 1 then
        if isRotationTrigger msg then
          ⟨.error (allExhaustPrefix ++ m), s1, inner.ci, inner.ji, 1, 0, inner.waits⟩
        else ⟨.error msg, s1, inner.ci, inner.ji, 1, 0, inner.waits⟩
      else ⟨.error msg, s1, inner.ci, inner.ji, 1, 0, inner.waits⟩

/-- The outer loop bound of executeWithKeyRotation: the pool size after the
initial reload, with a minimum of one attempt. -/
def maxAttemptsOf (r : ℕ) (cfg : Config) (s : KMState) : ℕ :=
  if 0 < (loadKeys r cfg s).keys.length then (loadKeys r cfg s).keys.length
  else 1

/-- executeWithKeyRotation: reloads the pool, computes the outer bound, and
runs the outer rotation loop from attempt 0. -/
def executeWithKeyRotation (op : ℕ → Except String R) (jit : ℕ → ℚ) (r : ℕ)
    (cfg : Config) (s : KMState) : OuterOut R :=
  outerGo op jit r cfg (maxAttemptsOf r cfg s) (maxAttemptsOf r cfg s) 0
    (loadKeys r cfg s) 0 0

/-- The default flash-tier model of the fallback path in callModel. -/
def defaultFlashModel : String := "gemini-2.5-flash"

/-- The fixed fallback model identifier of callModel. -/
def fallbackModel : String := "gemini-2.0-flash"

/-- The quota-exhaustion classification applied by callModel to the error of
the first executor run. -/
def isQuotaExhausted (msg : String) : Bool :=
  let es := lowerStr msg
  strContains es "exhausted" || strContains es "quota" ||
  strContains es "limit" || strContains es "429"

/-- callModel: rejects identifiers that do not start with gemini-, runs the
executor, and on a quota-classified failure of the default flash model
retries the whole call once against the fallback model; counters, attempt
counts and waits of the two runs are accumulated. -/
def callModel (op : String → ℕ → Except String R) (jit : ℕ → ℚ) (r : ℕ)
    (cfg : Config) (s : KMState) (model : String) : OuterOut R :=
  if startsList "gemini-".data model.data then
    let o1 := executeWithKeyRotation (op model) jit r cfg s
    match o1.res with
    | .ok _ => o1
    | .error e =>
      if isQuotaExhausted e ∧ model = defaultFlashModel then
        let o2 := executeWithKeyRotation (op fallbackModel) jit r cfg o1.km
        ⟨o2.res, o2.km, o1.ci + o2.ci, o1.ji + o2.ji,
          o1.outerAttempts + o2.outerAttempts, o1.rotations + o2.rotations,
          o1.waits ++ o2.waits⟩
      else o1
  else ⟨.error ("Unsupported model: " ++ model), s, 0, 0, 0, 0, []⟩

/-! ### Concrete fixtures used by witnesses and counterexamples -/

/-- A configuration whose stored list holds two keys. -/
def twoKeyCfg : Config := ⟨some (some ["key-one", "key-two"]), none, none⟩

/-- A configuration whose stored list holds one key. -/
def oneKeyCfg : Config := ⟨some (some ["key-one"]), none, none⟩

/-- A configuration with no credentials anywhere. -/
def emptyCfg : Config := ⟨none, none, none⟩

/-- The KeyManager state at process start. -/
def freshState : KMState := ⟨[], 0, false⟩

/-- A jitter stream that always draws zero. -/
def zeroJit : ℕ → ℚ := fun _ => 0

/-- An operation that always fails with a hard-quota message. -/
def hardQuotaOp : ℕ → Except String Unit :=
  fun _ => .error "quota exceeded for metric generate_content_requests"

/-- An operation that always fails with a plain rate-limit message. -/
def rate429Op : ℕ → Except String Unit :=
  fun _ => .error "429 resource exhausted"

/-- An operation that always fails with a transient server message. -/
def transientOp : ℕ → Except String Unit :=
  fun _ => .error "internal server error"

/-- A model-indexed operation that succeeds only on the fallback model. -/
def fallbackOkOp : String → ℕ → Except String Unit :=
  fun m _ => if m = fallbackModel then .ok () else .error "429 resource exhausted"

/-! ### Lemmas about the string primitives -/

theorem startsList_self (l : List Char) : startsList l l = true := by
  induction l with
  | nil => rfl
  | cons c cs ih => simp [startsList, ih]

theorem startsList_append {p s : List Char} (t : List Char)
    (h : startsList p s = true) : startsList p (s ++ t) = true := by
  induction p generalizing s with
  | nil => rfl
  | cons a as ih =>
    cases s with
    | nil => simp [startsList] at h
    | cons b bs =>
      simp only [startsList, Bool.and_eq_true, beq_iff_eq] at h ⊢
      exact ⟨h.1, ih h.2⟩

theorem listHasSub_nil_left (s : List Char) : listHasSub [] s = true := by
  cases s with
  | nil => rfl
  | cons c cs => simp [listHasSub, startsList]

theorem listHasSub_append_left {p s : List Char} (t : List Char)
    (h : listHasSub p s = true) : listHasSub p (s ++ t) = true := by
  induction s with
  | nil =>
    have hp : p = [] := by
      cases p with
      | nil => rfl
      | cons a as => simp [listHasSub] at h
    subst hp
    exact listHasSub_nil_left t
  | cons c cs ih =>
    simp only [listHasSub, Bool.or_eq_true] at h
    rcases h with h | h
    · have := startsList_append (s := c :: cs) t h
      simp only [List.cons_append, listHasSub, Bool.or_eq_true]
      exact Or.inl (by simpa using this)
    · simp only [List.cons_append, listHasSub, Bool.or_eq_true]
      exact Or.inr (ih h)

theorem listHasSub_append_right {p t : List Char} (s : List Char)
    (h : listHasSub p t = true) : listHasSub p (s ++ t) = true := by
  induction s with
  | nil => exact h
  | cons c cs ih =>
    simp only [List.cons_append, listHasSub, Bool.or_eq_true]
    exact Or.inr ih

theorem listHasSub_self (p : List Char) : listHasSub p p = true := by
  cases p with
  | nil => rfl
  | cons c cs => simp [listHasSub, startsList_self]

theorem data_append (s t : String) : (s ++ t).data = s.data ++ t.data := by
  cases s; cases t; rfl

theorem strContains_append_left {s : String} (t : String) {pat : String}
    (h : strContains s pat = true) : strContains (s ++ t) pat = true := by
  unfold strContains at h ⊢
  rw [data_append]
  exact listHasSub_append_left t.data h

theorem strContains_append_right {t : String} (s : String) {pat : String}
    (h : strContains t pat = true) : strContains (s ++ t) pat = true := by
  unfold strContains at h ⊢
  rw [data_append]
  exact listHasSub_append_right s.data h

theorem strContains_self (s : String) : strContains s s = true := by
  unfold strContains
  exact listHasSub_self s.data

theorem lowerStr_append (s t : String) :
    lowerStr (s ++ t) = lowerStr s ++ lowerStr t := by
  cases s with
  | mk a =>
    cases t with
    | mk b =>
      show String.mk ((a ++ b).map Char.toLower)
          = String.mk (a.map Char.toLower ++ b.map Char.toLower)
      rw [List.map_append]

theorem char_toLower_idem (c : Char) :
    Char.toLower (Char.toLower c) = Char.toLower c := by
  by_cases h : c.toNat ≥ 65 ∧ c.toNat ≤ 90
  · have hlow : c.toLower = Char.ofNat (c.toNat + 32) := by
      rw [Char.toLower]
      simp [h]
    obtain ⟨h1, h2⟩ := h
    have key : ∀ m : ℕ, 65 ≤ m → m ≤ 90 →
        (Char.ofNat (m + 32)).toLower = Char.ofNat (m + 32) := by
      intro m hm1 hm2
      interval_cases m <;> decide
    rw [hlow]
    exact key c.toNat h1 h2
  · have hlow : c.toLower = c := by
      rw [Char.toLower]
      simp [h]
    rw [hlow]
    exact hlow

theorem lowerStr_idem (s : String) : lowerStr (lowerStr s) = lowerStr s := by
  cases s with
  | mk a =>
    show String.mk ((a.map Char.toLower).map Char.toLower)
        = String.mk (a.map Char.toLower)
    rw [List.map_map]
    congr 1
    exact List.map_congr_left (fun c _ => char_toLower_idem c)

/-! ### Basic facts about loadKeys and rotate -/

theorem loadKeys_keys (r : ℕ) (cfg : Config) (s : KMState) :
    (loadKeys r cfg s).keys = newKeysOf cfg := by
  unfold loadKeys
  split
  · rfl
  · split <;> rfl

theorem loadKeys_lt (r : ℕ) (cfg : Config) (s : KMState)
    (h : 0 < (newKeysOf cfg).length) :
    (loadKeys r cfg s).currentIndex < (newKeysOf cfg).length := by
  unfold loadKeys
  by_cases h1 : s.initialized = false ∧ 0 < (newKeysOf cfg).length
  · rw [if_pos h1]
    exact Nat.mod_lt r h
  · rw [if_neg h1, if_pos h]
    by_cases h2 : (newKeysOf cfg).length ≤ s.currentIndex
    · simp only [if_pos h2]
      exact h
    · simp only [if_neg h2]
      omega

theorem loadKeys_init_true (r : ℕ) (cfg : Config) (s : KMState)
    (h : 0 < (newKeysOf cfg).length) :
    (loadKeys r cfg s).initialized = true := by
  unfold loadKeys
  by_cases h1 : s.initialized = false ∧ 0 < (newKeysOf cfg).length
  · rw [if_pos h1]
  · rw [if_neg h1, if_pos h]
    simp only [not_and] at h1
    cases hini : s.initialized with
    | true => rfl
    | false => exact absurd h (h1 hini)

theorem loadKeys_stable (r : ℕ) (cfg : Config) (s : KMState)
    (h1 : s.initialized = true) (h2 : s.currentIndex < (newKeysOf cfg).length) :
    loadKeys r cfg s = ⟨newKeysOf cfg, s.currentIndex, true⟩ := by
  unfold loadKeys
  have hpos : 0 < (newKeysOf cfg).length := Nat.lt_of_le_of_lt (Nat.zero_le _) h2
  rw [if_neg (by simp [h1]), if_pos hpos, if_neg (by omega)]
  simp [h1]

theorem loadKeys_empty (r : ℕ) (cfg : Config) (s : KMState)
    (h : newKeysOf cfg = []) :
    loadKeys r cfg s = ⟨[], s.currentIndex, s.initialized⟩ := by
  unfold loadKeys
  rw [if_neg (by simp [h]), if_neg (by simp [h]), h]

theorem loadKeys_indep (r₁ r₂ : ℕ) (cfg : Config) (s : KMState)
    (h : s.initialized = true) : loadKeys r₁ cfg s = loadKeys r₂ cfg s := by
  unfold loadKeys
  simp [h]

theorem rotate_keys (s : KMState) : ((rotate s).2).keys = s.keys := by
  unfold rotate
  split <;> rfl

theorem rotate_init (s : KMState) :
    ((rotate s).2).initialized = s.initialized := by
  unfold rotate
  split <;> rfl

theorem rotate_lt (s : KMState) (h : s.currentIndex < s.keys.length) :
    ((rotate s).2).currentIndex < ((rotate s).2).keys.length := by
  unfold rotate
  split
  · exact h
  · next hgt =>
    exact Nat.mod_lt _ (by omega)

/-! ### Behavior of the inner retry loop under fixed failure classes -/

theorem inner_ok {R : Type} (op : ℕ → Except String R) (jit : ℕ → ℚ)
    (nkeys ci ji : ℕ) (v : R) (hok : op ci = .ok v) :
    withRateLimitHandling op jit nkeys ci ji = ⟨.ok v, ci + 1, ji, []⟩ := by
  simp [withRateLimitHandling, MAX_RETRIES, innerGo, hok]

theorem inner_hard {R : Type} (op : ℕ → Except String R) (jit : ℕ → ℚ)
    (nkeys ci ji : ℕ) (m : String) (herr : op ci = .error m)
    (hhard : isHardQuotaZero m = true) :
    withRateLimitHandling op jit nkeys ci ji
      = ⟨.error (hqWrapPrefix ++ lowerStr m), ci + 1, ji, []⟩ := by
  simp [withRateLimitHandling, MAX_RETRIES, innerGo, herr, hhard]

theorem inner_rot_multi {R : Type} (op : ℕ → Except String R) (jit : ℕ → ℚ)
    (nkeys ci ji : ℕ) (m : String) (herr : op ci = .error m)
    (hhard : isHardQuotaZero m = false) (hrot : isRotationTrigger m = true)
    (hn : 1 < nkeys) :
    withRateLimitHandling op jit nkeys ci ji = ⟨.error m, ci + 1, ji, []⟩ := by
  simp [withRateLimitHandling, MAX_RETRIES, innerGo, herr, hhard, hrot, hn]

theorem inner_rot_single {R : Type} (op : ℕ → Except String R) (jit : ℕ → ℚ)
    (nkeys ci ji : ℕ) (e : ℕ → String) (hop : ∀ n, op n = .error (e n))
    (hhard : ∀ n, isHardQuotaZero (e n) = false)
    (hrot : ∀ n, isRotationTrigger (e n) = true) (hn : nkeys ≤ 1) :
    withRateLimitHandling op jit nkeys ci ji
      = ⟨.error (innerExhaustPrefix ++ lowerStr (e (ci + 4))), ci + 5, ji + 4,
         [rotationBackoff (jit ji), rotationBackoff (jit (ji + 1)),
          rotationBackoff (jit (ji + 2)), rotationBackoff (jit (ji + 3))]⟩ := by
  have hn' : ¬(1 < nkeys) := by omega
  simp only [withRateLimitHandling, MAX_RETRIES, innerGo, hop, hhard, hrot, hn',
    and_false, if_false, Bool.false_eq_true, and_true, if_true, if_neg,
    reduceIte, Nat.add_eq]
  norm_num [innerGo, hop, hhard, hrot, hn']

theorem inner_transient {R : Type} (op : ℕ → Except String R) (jit : ℕ → ℚ)
    (nkeys ci ji : ℕ) (e : ℕ → String) (hop : ∀ n, op n = .error (e n))
    (hhard : ∀ n, isHardQuotaZero (e n) = false)
    (hrot : ∀ n, isRotationTrigger (e n) = false) :
    withRateLimitHandling op jit nkeys ci ji
      = ⟨.error (e (ci + 4)), ci + 5, ji + 4,
         [transientBackoff 1 (jit ji), transientBackoff 2 (jit (ji + 1)),
          transientBackoff 3 (jit (ji + 2)), transientBackoff 4 (jit (ji + 3))]⟩ := by
  norm_num [withRateLimitHandling, MAX_RETRIES, innerGo, hop, hhard, hrot]

/-! ### Classification of the wrapped error messages -/

theorem rot_of_innerExhaust (m : String) :
    isRotationTrigger (innerExhaustPrefix ++ m) = true := by
  have h : strContains (lowerStr (innerExhaustPrefix ++ m)) "quota" = true := by
    rw [lowerStr_append]
    exact strContains_append_left _ (by decide)
  simp [isRotationTrigger, h]

theorem rot_of_hqWrap (m : String) :
    isRotationTrigger (hqWrapPrefix ++ m) = true := by
  have h : strContains (lowerStr (hqWrapPrefix ++ m)) "quota" = true := by
    rw [lowerStr_append]
    exact strContains_append_left _ (by decide)
  simp [isRotationTrigger, h]

theorem notrot_keyNotFound : isRotationTrigger keyNotFoundMsg = false := by decide

theorem quotaExhausted_of_allExhaust (m : String) :
    isQuotaExhausted (allExhaustPrefix ++ m) = true := by
  have h : strContains (lowerStr (allExhaustPrefix ++ m)) "exhausted" = true := by
    rw [lowerStr_append]
    exact strContains_append_left _ (by decide)
  simp [isQuotaExhausted, h]

theorem quotaExhausted_of_loopMsg : isQuotaExhausted exhaustedLoopMsg = true := by
  decide

/-! ### Behavior of the outer rotation loop -/

theorem outer_ok_first {R : Type} (op : ℕ → Except String R) (jit : ℕ → ℚ)
    (r : ℕ) (cfg : Config) (ma fuel a : ℕ) (s : KMState) (ci ji : ℕ) (v : R)
    (hok : op ci = .ok v) (hne : 0 < (newKeysOf cfg).length) :
    outerGo op jit r cfg ma (fuel + 1) a s ci ji
      = ⟨.ok v, loadKeys r cfg s, ci + 1, ji, 1, 0, []⟩ := by
  have h0 : ¬((loadKeys r cfg s).keys.length = 0) := by
    rw [loadKeys_keys]
    omega
  simp [outerGo, h0,
    inner_ok op jit (loadKeys r cfg s).keys.length ci ji v hok]

theorem outer_rotating {R : Type} (op : ℕ → Except String R) (jit : ℕ → ℚ)
    (r : ℕ) (cfg : Config) (ma : ℕ) (w : ℕ → String)
    (hK2 : 2 ≤ (newKeysOf cfg).length)
    (hinner : ∀ ci ji : ℕ,
      withRateLimitHandling op jit (newKeysOf cfg).length ci ji
        = ⟨.error (w ci), ci + 1, ji, []⟩)
    (hw : ∀ n, isRotationTrigger (w n) = true) :
    ∀ (fuel a : ℕ) (s : KMState) (ci ji : ℕ), s.initialized = true →
      s.currentIndex < (newKeysOf cfg).length →
      (outerGo op jit r cfg ma fuel a s ci ji).res = .error exhaustedLoopMsg ∧
      (outerGo op jit r cfg ma fuel a s ci ji).outerAttempts = fuel ∧
      (outerGo op jit r cfg ma fuel a s ci ji).rotations = fuel ∧
      (outerGo op jit r cfg ma fuel a s ci ji).ci = ci + fuel ∧
      (outerGo op jit r cfg ma fuel a s ci ji).ji = ji ∧
      (outerGo op jit r cfg ma fuel a s ci ji).waits
        = List.replicate fuel (10000 : ℚ) := by
  intro fuel
  induction fuel with
  | zero =>
    intro a s ci ji h1 h2
    simp [outerGo]
  | succ fuel ih =>
    intro a s ci ji h1 h2
    have hs1 : loadKeys r cfg s = ⟨newKeysOf cfg, s.currentIndex, true⟩ :=
      loadKeys_stable r cfg s h1 h2
    have hlen : ¬((newKeysOf cfg).length = 0) := by omega
    have hgt : 1 < (newKeysOf cfg).length := by omega
    have hrotst : (rotate ⟨newKeysOf cfg, s.currentIndex, true⟩).2
        = ⟨newKeysOf cfg, (s.currentIndex + 1) % (newKeysOf cfg).length, true⟩ := by
      unfold rotate
      rw [if_neg (by simp only [not_le]; omega)]
    obtain ⟨ih1, ih2, ih3, ih4, ih5, ih6⟩ :=
      ih (a + 1) ⟨newKeysOf cfg, (s.currentIndex + 1) % (newKeysOf cfg).length, true⟩
        (ci + 1) ji rfl (Nat.mod_lt _ (by omega))
    simp only [outerGo, hs1, hlen, if_false, hinner, hw, hgt, and_true, if_true,
      hrotst, List.nil_append, ite_false, ite_true, true_and]
    refine ⟨ih1, ?_, ?_, ?_, ih5, ?_⟩
    · simpa using ih2
    · simpa using ih3
    · rw [ih4]
      omega
    · rw [ih6, List.replicate_succ]

theorem maxAttemptsOf_pos (r : ℕ) (cfg : Config) (s : KMState)
    (h : 0 < (newKeysOf cfg).length) :
    maxAttemptsOf r cfg s = (newKeysOf cfg).length := by
  unfold maxAttemptsOf
  rw [loadKeys_keys, if_pos h]

theorem maxAttemptsOf_empty (r : ℕ) (cfg : Config) (s : KMState)
    (h : newKeysOf cfg = []) : maxAttemptsOf r cfg s = 1 := by
  unfold maxAttemptsOf
  rw [loadKeys_keys, h]
  rfl

/-- A single outer iteration on a one-key pool whose inner loop failed with
a rotation-trigger message on the last outer attempt: the terminal
all-keys-exhausted wrapper is thrown. -/
theorem outer_last_single {R : Type} (op : ℕ → Except String R) (jit : ℕ → ℚ)
    (r : ℕ) (cfg : Config) (ma fuel a : ℕ) (s : KMState) (ci ji : ℕ)
    (msg : String) (ci' ji' : ℕ) (ws : List ℚ)
    (hK1 : (newKeysOf cfg).length = 1)
    (h1 : s.initialized = true) (h2 : s.currentIndex < (newKeysOf cfg).length)
    (hinner : withRateLimitHandling op jit 1 ci ji = ⟨.error msg, ci', ji', ws⟩)
    (hrotmsg : isRotationTrigger msg = true) (ha : a = ma - 1) :
    outerGo op jit r cfg ma (fuel + 1) a s ci ji
      = ⟨.error (allExhaustPrefix ++ lowerStr msg),
         ⟨newKeysOf cfg, s.currentIndex, true⟩, ci', ji', 1, 0, ws⟩ := by
  have hs1 := loadKeys_stable r cfg s h1 h2
  simp [outerGo, hs1, hK1, hinner, hrotmsg, ha]

/-- A single outer iteration on a one-key pool whose inner loop failed with
a non-rotation-trigger message on the last outer attempt: the error is
rethrown unchanged. -/
theorem outer_last_single_norot {R : Type} (op : ℕ → Except String R)
    (jit : ℕ → ℚ) (r : ℕ) (cfg : Config) (ma fuel a : ℕ) (s : KMState)
    (ci ji : ℕ) (msg : String) (ci' ji' : ℕ) (ws : List ℚ)
    (hK1 : (newKeysOf cfg).length = 1)
    (h1 : s.initialized = true) (h2 : s.currentIndex < (newKeysOf cfg).length)
    (hinner : withRateLimitHandling op jit 1 ci ji = ⟨.error msg, ci', ji', ws⟩)
    (hrotmsg : isRotationTrigger msg = false) (ha : a = ma - 1) :
    outerGo op jit r cfg ma (fuel + 1) a s ci ji
      = ⟨.error msg, ⟨newKeysOf cfg, s.currentIndex, true⟩, ci', ji', 1, 0, ws⟩ := by
  have hs1 := loadKeys_stable r cfg s h1 h2
  simp [outerGo, hs1, hK1, hinner, hrotmsg, ha]

/-- A single outer iteration on an empty pool: getCurrentKey throws the
configuration error inside the try, the catch does not classify it as a
rotation trigger, and it is rethrown; the operation is never invoked. -/
theorem outer_empty_step {R : Type} (op : ℕ → Except String R) (jit : ℕ → ℚ)
    (r : ℕ) (cfg : Config) (ma fuel a : ℕ) (s : KMState) (ci ji : ℕ)
    (hK0 : newKeysOf cfg = []) (ha : a = ma - 1) :
    outerGo op jit r cfg ma (fuel + 1) a s ci ji
      = ⟨.error keyNotFoundMsg, ⟨[], s.currentIndex, s.initialized⟩,
         ci, ji, 1, 0, []⟩ := by
  have hs1 := loadKeys_empty r cfg s hK0
  simp [outerGo, hs1, notrot_keyNotFound, ha, hK0]

/-- The executor succeeds immediately when the first invocation of the
operation succeeds and the pool is non-empty. -/
theorem exec_ok_first {R : Type} (op : ℕ → Except String R) (jit : ℕ → ℚ)
    (r : ℕ) (cfg : Config) (s : KMState) (v : R) (hok : op 0 = .ok v)
    (hne : 0 < (newKeysOf cfg).length) :
    executeWithKeyRotation op jit r cfg s
      = ⟨.ok v, loadKeys r cfg (loadKeys r cfg s), 1, 0, 1, 0, []⟩ := by
  unfold executeWithKeyRotation
  have hma : maxAttemptsOf r cfg s = (newKeysOf cfg).length :=
    maxAttemptsOf_pos r cfg s hne
  rw [hma]
  obtain ⟨n, hn⟩ : ∃ n, (newKeysOf cfg).length = n + 1 :=
    ⟨(newKeysOf cfg).length - 1, by omega⟩
  rw [hn]
  exact outer_ok_first op jit r cfg (n + 1) n 0 (loadKeys r cfg s) 0 0 v hok hne

/-- With at least two keys and every invocation failing with a
rotation-trigger (but not hard-quota) message, the executor rotates through
the whole pool: one inner call per key, a 10 second cooldown after each,
and the fixed rotation-loop-ended terminal error at the end. -/
theorem exec_allrot_multi {R : Type} (op : ℕ → Except String R) (jit : ℕ → ℚ)
    (r : ℕ) (cfg : Config) (s : KMState) (e : ℕ → String)
    (hK2 : 2 ≤ (newKeysOf cfg).length)
    (hop : ∀ n, op n = .error (e n))
    (hhard : ∀ n, isHardQuotaZero (e n) = false)
    (hrot : ∀ n, isRotationTrigger (e n) = true) :
    (executeWithKeyRotation op jit r cfg s).res = .error exhaustedLoopMsg ∧
    (executeWithKeyRotation op jit r cfg s).outerAttempts
      = (newKeysOf cfg).length ∧
    (executeWithKeyRotation op jit r cfg s).rotations
      = (newKeysOf cfg).length ∧
    (executeWithKeyRotation op jit r cfg s).ci = (newKeysOf cfg).length ∧
    (executeWithKeyRotation op jit r cfg s).ji = 0 ∧
    (executeWithKeyRotation op jit r cfg s).waits
      = List.replicate (newKeysOf cfg).length (10000 : ℚ) := by
  have hma : maxAttemptsOf r cfg s = (newKeysOf cfg).length :=
    maxAttemptsOf_pos r cfg s (by omega)
  have h0 : (loadKeys r cfg s).initialized = true :=
    loadKeys_init_true r cfg s (by omega)
  have h1 : (loadKeys r cfg s).currentIndex < (newKeysOf cfg).length :=
    loadKeys_lt r cfg s (by omega)
  have hinner : ∀ ci ji : ℕ,
      withRateLimitHandling op jit (newKeysOf cfg).length ci ji
        = ⟨.error (e ci), ci + 1, ji, []⟩ := fun ci ji =>
    inner_rot_multi op jit _ ci ji (e ci) (hop ci) (hhard ci) (hrot ci)
      (by omega)
  have hmain := outer_rotating op jit r cfg (maxAttemptsOf r cfg s) e hK2
    hinner hrot (maxAttemptsOf r cfg s) 0 (loadKeys r cfg s) 0 0 h0 h1
  rw [hma] at hmain
  unfold executeWithKeyRotation
  rw [hma]
  simpa using hmain

/-- With exactly one key and every invocation failing with a
rotation-trigger (but not hard-quota) message, the executor never rotates:
the inner loop burns its full budget of 5 attempts with 4 rotation-backoff
waits, and the terminal error wraps the last inner error message. -/
theorem exec_single_rot {R : Type} (op : ℕ → Except String R) (jit : ℕ → ℚ)
    (r : ℕ) (cfg : Config) (s : KMState) (e : ℕ → String)
    (hK1 : (newKeysOf cfg).length = 1)
    (hop : ∀ n, op n = .error (e n))
    (hhard : ∀ n, isHardQuotaZero (e n) = false)
    (hrot : ∀ n, isRotationTrigger (e n) = true) :
    executeWithKeyRotation op jit r cfg s
      = ⟨.error (allExhaustPrefix
            ++ lowerStr (innerExhaustPrefix ++ lowerStr (e 4))),
         ⟨newKeysOf cfg, (loadKeys r cfg s).currentIndex, true⟩, 5, 4, 1, 0,
         [rotationBackoff (jit 0), rotationBackoff (jit 1),
          rotationBackoff (jit 2), rotationBackoff (jit 3)]⟩ := by
  have hma : maxAttemptsOf r cfg s = 1 := by
    rw [maxAttemptsOf_pos r cfg s (by omega), hK1]
  have h0 : (loadKeys r cfg s).initialized = true :=
    loadKeys_init_true r cfg s (by omega)
  have h1 : (loadKeys r cfg s).currentIndex < (newKeysOf cfg).length :=
    loadKeys_lt r cfg s (by omega)
  have hinner := inner_rot_single op jit 1 0 0 e hop hhard hrot (le_refl 1)
  unfold executeWithKeyRotation
  rw [hma]
  exact outer_last_single op jit r cfg 1 0 0 (loadKeys r cfg s) 0 0
    (innerExhaustPrefix ++ lowerStr (e 4)) 5 4
    [rotationBackoff (jit 0), rotationBackoff (jit 1),
     rotationBackoff (jit 2), rotationBackoff (jit 3)]
    hK1 h0 h1 (by simpa using hinner)
    (rot_of_innerExhaust (lowerStr (e 4))) rfl

/-- With exactly one key and every invocation failing with a hard-quota
message, the inner loop throws the wrapped hard-quota error on its first
attempt (no retries, no waits), and the outer loop turns it into the
terminal all-keys-exhausted error without rotating. -/
theorem exec_hard_single {R : Type} (op : ℕ → Except String R) (jit : ℕ → ℚ)
    (r : ℕ) (cfg : Config) (s : KMState) (e : ℕ → String)
    (hK1 : (newKeysOf cfg).length = 1)
    (hop : ∀ n, op n = .error (e n))
    (hhard : ∀ n, isHardQuotaZero (e n) = true) :
    executeWithKeyRotation op jit r cfg s
      = ⟨.error (allExhaustPrefix
            ++ lowerStr (hqWrapPrefix ++ lowerStr (e 0))),
         ⟨newKeysOf cfg, (loadKeys r cfg s).currentIndex, true⟩, 1, 0, 1, 0,
         []⟩ := by
  have hma : maxAttemptsOf r cfg s = 1 := by
    rw [maxAttemptsOf_pos r cfg s (by omega), hK1]
  have h0 : (loadKeys r cfg s).initialized = true :=
    loadKeys_init_true r cfg s (by omega)
  have h1 : (loadKeys r cfg s).currentIndex < (newKeysOf cfg).length :=
    loadKeys_lt r cfg s (by omega)
  have hinner := inner_hard op jit 1 0 0 (e 0) (hop 0) (hhard 0)
  unfold executeWithKeyRotation
  rw [hma]
  exact outer_last_single op jit r cfg 1 0 0 (loadKeys r cfg s) 0 0
    (hqWrapPrefix ++ lowerStr (e 0)) 1 0 [] hK1 h0 h1
    (by simpa using hinner) (rot_of_hqWrap (lowerStr (e 0))) rfl

/-- With at least two keys and every invocation failing with a hard-quota
message, the executor still rotates through the whole pool: the wrapped
hard-quota error itself matches the rotation-trigger classification. -/
theorem exec_hard_multi {R : Type} (op : ℕ → Except String R) (jit : ℕ → ℚ)
    (r : ℕ) (cfg : Config) (s : KMState) (e : ℕ → String)
    (hK2 : 2 ≤ (newKeysOf cfg).length)
    (hop : ∀ n, op n = .error (e n))
    (hhard : ∀ n, isHardQuotaZero (e n) = true) :
    (executeWithKeyRotation op jit r cfg s).res = .error exhaustedLoopMsg ∧
    (executeWithKeyRotation op jit r cfg s).rotations
      = (newKeysOf cfg).length ∧
    (executeWithKeyRotation op jit r cfg s).ci = (newKeysOf cfg).length := by
  have hma : maxAttemptsOf r cfg s = (newKeysOf cfg).length :=
    maxAttemptsOf_pos r cfg s (by omega)
  have h0 : (loadKeys r cfg s).initialized = true :=
    loadKeys_init_true r cfg s (by omega)
  have h1 : (loadKeys r cfg s).currentIndex < (newKeysOf cfg).length :=
    loadKeys_lt r cfg s (by omega)
  have hinner : ∀ ci ji : ℕ,
      withRateLimitHandling op jit (newKeysOf cfg).length ci ji
        = ⟨.error (hqWrapPrefix ++ lowerStr (e ci)), ci + 1, ji, []⟩ :=
    fun ci ji => inner_hard op jit _ ci ji (e ci) (hop ci) (hhard ci)
  have hmain := outer_rotating op jit r cfg (maxAttemptsOf r cfg s)
    (fun n => hqWrapPrefix ++ lowerStr (e n)) hK2 hinner
    (fun n => rot_of_hqWrap (lowerStr (e n)))
    (maxAttemptsOf r cfg s) 0 (loadKeys r cfg s) 0 0 h0 h1
  rw [hma] at hmain
  unfold executeWithKeyRotation
  rw [hma]
  exact ⟨hmain.1, hmain.2.2.1, by simpa using hmain.2.2.2.1⟩

/-- With an empty pool the executor fails with the configuration error and
never invokes the operation. -/
theorem exec_empty {R : Type} (op : ℕ → Except String R) (jit : ℕ → ℚ)
    (r : ℕ) (cfg : Config) (s : KMState) (hK0 : newKeysOf cfg = []) :
    executeWithKeyRotation op jit r cfg s
      = ⟨.error keyNotFoundMsg, ⟨[], s.currentIndex, s.initialized⟩,
         0, 0, 1, 0, []⟩ := by
  have hma : maxAttemptsOf r cfg s = 1 := maxAttemptsOf_empty r cfg s hK0
  have hs0 := loadKeys_empty r cfg s hK0
  unfold executeWithKeyRotation
  rw [hma, hs0]
  exact outer_empty_step op jit r cfg 1 0 0 ⟨[], s.currentIndex, s.initialized⟩
    0 0 hK0 rfl

theorem hard_of_hardMsg :
    isHardQuotaZero "quota exceeded for metric generate_content_requests"
      = true := by decide

theorem notHard_of_429Msg :
    isHardQuotaZero "429 resource exhausted" = false := by decide

theorem rot_of_429Msg :
    isRotationTrigger "429 resource exhausted" = true := by decide

theorem notRot_of_transientMsg :
    isRotationTrigger "internal server error" = false := by decide

theorem notHard_of_transientMsg :
    isHardQuotaZero "internal server error" = false := by decide

/-! ### Claim C1 -/

/-- C1 as stated is false: with two credentials, a hard-quota failure
(message containing quota exceeded for metric) does not terminate the
logical call on its first occurrence — the executor rotates twice and
invokes the underlying operation a second time, because the wrapped
hard-quota error itself matches the rotation-trigger classification. -/
theorem C1_hard_quota_counterexample :
    (executeWithKeyRotation hardQuotaOp zeroJit 0 twoKeyCfg freshState).rotations
        = 2 ∧
    (executeWithKeyRotation hardQuotaOp zeroJit 0 twoKeyCfg freshState).ci
        = 2 := ⟨rfl, rfl⟩

/-- C1 (amended): a hard-quota failure terminates the inner retry loop on
its first occurrence, with no inner retries and no backoff wait; it
terminates the whole logical call only when the pool holds one credential.
With two or more credentials the Call Executor classifies the wrapped
hard-quota error as a rotation trigger and rotates through the entire
pool, one invocation per credential. -/
theorem C1_hard_quota_amended {R : Type} (op : ℕ → Except String R)
    (jit : ℕ → ℚ) (r : ℕ) (cfg : Config) (s : KMState) (e : ℕ → String)
    (hop : ∀ n, op n = .error (e n))
    (hhard : ∀ n, isHardQuotaZero (e n) = true) :
    (∀ nkeys ci ji : ℕ, withRateLimitHandling op jit nkeys ci ji
        = ⟨.error (hqWrapPrefix ++ lowerStr (e ci)), ci + 1, ji, []⟩) ∧
    ((newKeysOf cfg).length = 1 →
      executeWithKeyRotation op jit r cfg s
        = ⟨.error (allExhaustPrefix
              ++ lowerStr (hqWrapPrefix ++ lowerStr (e 0))),
           ⟨newKeysOf cfg, (loadKeys r cfg s).currentIndex, true⟩,
           1, 0, 1, 0, []⟩) ∧
    (2 ≤ (newKeysOf cfg).length →
      (executeWithKeyRotation op jit r cfg s).rotations
          = (newKeysOf cfg).length ∧
      (executeWithKeyRotation op jit r cfg s).ci
          = (newKeysOf cfg).length) := by
  refine ⟨fun nkeys ci ji =>
    inner_hard op jit nkeys ci ji (e ci) (hop ci) (hhard ci),
    fun hK1 => exec_hard_single op jit r cfg s e hK1 hop hhard,
    fun hK2 => ?_⟩
  have h := exec_hard_multi op jit r cfg s e hK2 hop hhard
  exact ⟨h.2.1, h.2.2⟩

/-- Witness for the amended C1 at concrete inputs. -/
theorem C1_hard_quota_amended_witness :
    withRateLimitHandling hardQuotaOp zeroJit 2 0 0
      = ⟨.error (hqWrapPrefix
            ++ lowerStr "quota exceeded for metric generate_content_requests"),
         1, 0, []⟩ ∧
    executeWithKeyRotation hardQuotaOp zeroJit 0 oneKeyCfg freshState
      = ⟨.error (allExhaustPrefix ++ lowerStr (hqWrapPrefix
            ++ lowerStr "quota exceeded for metric generate_content_requests")),
         ⟨newKeysOf oneKeyCfg,
          (loadKeys 0 oneKeyCfg freshState).currentIndex, true⟩,
         1, 0, 1, 0, []⟩ :=
  ⟨(C1_hard_quota_amended hardQuotaOp zeroJit 0 oneKeyCfg freshState
      (fun _ => "quota exceeded for metric generate_content_requests")
      (fun _ => rfl) (fun _ => hard_of_hardMsg)).1 2 0 0,
   (C1_hard_quota_amended hardQuotaOp zeroJit 0 oneKeyCfg freshState
      (fun _ => "quota exceeded for metric generate_content_requests")
      (fun _ => rfl) (fun _ => hard_of_hardMsg)).2.1 (by decide)⟩

/-! ### Claim C2 -/

/-- C2 as stated is false: with two credentials all failing with a
rotation-trigger error, the outer loop is exhausted through the rotation
branch and the terminal error is the fixed rotation-loop-ended message,
which does not contain the last underlying error text. -/
theorem C2_exhaust_message_counterexample :
    (executeWithKeyRotation rate429Op zeroJit 0 twoKeyCfg freshState).res
        = .error exhaustedLoopMsg ∧
    strContains exhaustedLoopMsg "429 resource exhausted" = false :=
  ⟨rfl, by decide⟩

/-- C2 (amended): when the pool holds exactly one credential, the terminal
error carries the all-keys-exhausted prefix and contains the lowercased
text of the last underlying error; when the pool holds two or more
credentials and every attempt fails with a rotation-trigger error, the
terminal error is the fixed rotation-loop-ended message, which carries no
underlying error text. -/
theorem C2_exhaust_message_amended {R : Type} (op : ℕ → Except String R)
    (jit : ℕ → ℚ) (r : ℕ) (cfg : Config) (s : KMState) (e : ℕ → String)
    (hop : ∀ n, op n = .error (e n))
    (hhard : ∀ n, isHardQuotaZero (e n) = false)
    (hrot : ∀ n, isRotationTrigger (e n) = true) :
    ((newKeysOf cfg).length = 1 →
      (executeWithKeyRotation op jit r cfg s).res
        = .error (allExhaustPrefix
            ++ lowerStr (innerExhaustPrefix ++ lowerStr (e 4))) ∧
      strContains (allExhaustPrefix
          ++ lowerStr (innerExhaustPrefix ++ lowerStr (e 4)))
        (lowerStr (e 4)) = true) ∧
    (2 ≤ (newKeysOf cfg).length →
      (executeWithKeyRotation op jit r cfg s).res
        = .error exhaustedLoopMsg) := by
  constructor
  · intro hK1
    constructor
    · rw [exec_single_rot op jit r cfg s e hK1 hop hhard hrot]
    · have hexp : allExhaustPrefix
          ++ lowerStr (innerExhaustPrefix ++ lowerStr (e 4))
          = allExhaustPrefix
            ++ (lowerStr innerExhaustPrefix ++ lowerStr (e 4)) := by
        rw [lowerStr_append, lowerStr_idem]
      rw [hexp]
      exact strContains_append_right allExhaustPrefix
        (strContains_append_right (lowerStr innerExhaustPrefix)
          (strContains_self (lowerStr (e 4))))
  · intro hK2
    exact (exec_allrot_multi op jit r cfg s e hK2 hop hhard hrot).1

/-- Witness for the amended C2 at concrete inputs. -/
theorem C2_exhaust_message_amended_witness :
    ((executeWithKeyRotation rate429Op zeroJit 0 oneKeyCfg freshState).res
        = .error (allExhaustPrefix
            ++ lowerStr (innerExhaustPrefix
                ++ lowerStr "429 resource exhausted")) ∧
      strContains (allExhaustPrefix
          ++ lowerStr (innerExhaustPrefix ++ lowerStr "429 resource exhausted"))
        (lowerStr "429 resource exhausted") = true) ∧
    (executeWithKeyRotation rate429Op zeroJit 0 twoKeyCfg freshState).res
        = .error exhaustedLoopMsg :=
  ⟨(C2_exhaust_message_amended rate429Op zeroJit 0 oneKeyCfg freshState
      (fun _ => "429 resource exhausted") (fun _ => rfl)
      (fun _ => notHard_of_429Msg) (fun _ => rot_of_429Msg)).1 (by decide),
   (C2_exhaust_message_amended rate429Op zeroJit 0 twoKeyCfg freshState
      (fun _ => "429 resource exhausted") (fun _ => rfl)
      (fun _ => notHard_of_429Msg) (fun _ => rot_of_429Msg)).2 (by decide)⟩

/-! ### Claim C3 -/

/-- C3: for every pool size N at least 1, the outer loop bound equals
max(1, N), and when every invocation fails with a rotation-trigger
(non-hard-quota) error the executor makes exactly N outer attempts and
then fails terminally. -/
theorem C3_outer_attempts {R : Type} (op : ℕ → Except String R)
    (jit : ℕ → ℚ) (r : ℕ) (cfg : Config) (s : KMState) (e : ℕ → String)
    (N : ℕ) (hN : (newKeysOf cfg).length = N) (hN1 : 1 ≤ N)
    (hop : ∀ n, op n = .error (e n))
    (hhard : ∀ n, isHardQuotaZero (e n) = false)
    (hrot : ∀ n, isRotationTrigger (e n) = true) :
    maxAttemptsOf r cfg s = max 1 N ∧
    (executeWithKeyRotation op jit r cfg s).outerAttempts = N ∧
    ∃ m, (executeWithKeyRotation op jit r cfg s).res = .error m := by
  have hmax : maxAttemptsOf r cfg s = max 1 N := by
    rw [maxAttemptsOf_pos r cfg s (by omega), hN]
    omega
  refine ⟨hmax, ?_⟩
  rcases Nat.lt_or_ge N 2 with hlt | hge
  · have hK1 : (newKeysOf cfg).length = 1 := by omega
    have h := exec_single_rot op jit r cfg s e hK1 hop hhard hrot
    refine ⟨?_, _, by rw [h]⟩
    rw [h]
    show (1 : ℕ) = N
    omega
  · have h := exec_allrot_multi op jit r cfg s e (by omega) hop hhard hrot
    exact ⟨by rw [h.2.1, hN], _, h.1⟩

/-- Witness for C3 on a two-key pool. -/
theorem C3_outer_attempts_witness :
    maxAttemptsOf 0 twoKeyCfg freshState = max 1 2 ∧
    (executeWithKeyRotation rate429Op zeroJit 0 twoKeyCfg freshState).outerAttempts
        = 2 ∧
    ∃ m, (executeWithKeyRotation rate429Op zeroJit 0 twoKeyCfg freshState).res
        = .error m :=
  C3_outer_attempts rate429Op zeroJit 0 twoKeyCfg freshState
    (fun _ => "429 resource exhausted") 2 (by decide) (by decide)
    (fun _ => rfl) (fun _ => notHard_of_429Msg) (fun _ => rot_of_429Msg)

/-! ### Backoff bounds -/

theorem rotationBackoff_bounds (j : ℚ) (h0 : 0 ≤ j) (h1 : j < 1) :
    8000 ≤ rotationBackoff j ∧ rotationBackoff j < 12000 := by
  unfold rotationBackoff
  constructor <;> nlinarith

theorem transientBackoff_bounds (k : ℕ) (j : ℚ) (h0 : 0 ≤ j) (h1 : j < 1) :
    2 ^ k * 1000 ≤ transientBackoff k j ∧
    transientBackoff k j < 2 ^ k * 1000 + 500 := by
  unfold transientBackoff
  constructor <;> nlinarith

theorem transientBackoff_strictMono (k : ℕ) :
    transientBackoff k 0 < transientBackoff (k + 1) 0 := by
  unfold transientBackoff
  have hp : (0 : ℚ) < 2 ^ k := pow_pos (by norm_num) k
  rw [pow_succ]
  nlinarith

theorem loadKeys_init_keep (r : ℕ) (cfg : Config) (s : KMState)
    (h : s.initialized = true) : (loadKeys r cfg s).initialized = true := by
  by_cases hk : 0 < (newKeysOf cfg).length
  · exact loadKeys_init_true r cfg s hk
  · rw [loadKeys_empty r cfg s (List.length_eq_zero.mp (by omega))]
    exact h

/-! ### Claim C4 -/

/-- C4: with exactly one credential and every invocation failing with a
rotation-trigger error, the active index is never advanced, the inner loop
performs its full budget of 5 attempts with 4 backoff waits of 8000 ms
plus jitter in [0, 4000) ms between them, and only then does the call fail
terminally. -/
theorem C4_single_key_rotation_backoff {R : Type} (op : ℕ → Except String R)
    (jit : ℕ → ℚ) (r : ℕ) (cfg : Config) (s : KMState) (e : ℕ → String)
    (hK1 : (newKeysOf cfg).length = 1)
    (hop : ∀ n, op n = .error (e n))
    (hhard : ∀ n, isHardQuotaZero (e n) = false)
    (hrot : ∀ n, isRotationTrigger (e n) = true)
    (hjit : ∀ n, 0 ≤ jit n ∧ jit n < 1) :
    (executeWithKeyRotation op jit r cfg s).rotations = 0 ∧
    (executeWithKeyRotation op jit r cfg s).km.currentIndex
        = (loadKeys r cfg s).currentIndex ∧
    (executeWithKeyRotation op jit r cfg s).ci = 5 ∧
    (executeWithKeyRotation op jit r cfg s).waits
        = [rotationBackoff (jit 0), rotationBackoff (jit 1),
           rotationBackoff (jit 2), rotationBackoff (jit 3)] ∧
    (∀ w ∈ (executeWithKeyRotation op jit r cfg s).waits,
      8000 ≤ w ∧ w < 12000) ∧
    ∃ m, (executeWithKeyRotation op jit r cfg s).res = .error m := by
  have h := exec_single_rot op jit r cfg s e hK1 hop hhard hrot
  rw [h]
  refine ⟨rfl, rfl, rfl, rfl, ?_, _, rfl⟩
  intro w hw
  have hw' : w ∈ [rotationBackoff (jit 0), rotationBackoff (jit 1),
      rotationBackoff (jit 2), rotationBackoff (jit 3)] := hw
  simp only [List.mem_cons, List.not_mem_nil, or_false] at hw'
  rcases hw' with h1 | h1 | h1 | h1 <;> subst h1 <;>
    exact rotationBackoff_bounds _ (hjit _).1 (hjit _).2

/-- Witness for C4 on a concrete one-key pool. -/
theorem C4_single_key_rotation_backoff_witness :
    (executeWithKeyRotation rate429Op zeroJit 0 oneKeyCfg freshState).rotations
        = 0 ∧
    (executeWithKeyRotation rate429Op zeroJit 0 oneKeyCfg freshState).km.currentIndex
        = (loadKeys 0 oneKeyCfg freshState).currentIndex ∧
    (executeWithKeyRotation rate429Op zeroJit 0 oneKeyCfg freshState).ci = 5 ∧
    (executeWithKeyRotation rate429Op zeroJit 0 oneKeyCfg freshState).waits
        = [rotationBackoff (zeroJit 0), rotationBackoff (zeroJit 1),
           rotationBackoff (zeroJit 2), rotationBackoff (zeroJit 3)] ∧
    (∀ w ∈ (executeWithKeyRotation rate429Op zeroJit 0 oneKeyCfg freshState).waits,
      8000 ≤ w ∧ w < 12000) ∧
    ∃ m, (executeWithKeyRotation rate429Op zeroJit 0 oneKeyCfg freshState).res
        = .error m :=
  C4_single_key_rotation_backoff rate429Op zeroJit 0 oneKeyCfg freshState
    (fun _ => "429 resource exhausted") (by decide) (fun _ => rfl)
    (fun _ => notHard_of_429Msg) (fun _ => rot_of_429Msg)
    (fun _ => by constructor <;> norm_num [zeroJit])

/-! ### Claim C5 -/

/-- C5: under transient failures (neither hard-quota nor rotation-trigger)
the inner loop waits transientBackoff k (jitter) before retry k+1, for
k = 1..4; the wait at attempt k equals 2 to the k times 1000 ms plus a
jitter in [0, 500) ms, and the deterministic part grows strictly
monotonically with k. -/
theorem C5_transient_backoff {R : Type} (op : ℕ → Except String R)
    (jit : ℕ → ℚ) (nkeys : ℕ) (e : ℕ → String)
    (hop : ∀ n, op n = .error (e n))
    (hhard : ∀ n, isHardQuotaZero (e n) = false)
    (hrot : ∀ n, isRotationTrigger (e n) = false) :
    (withRateLimitHandling op jit nkeys 0 0).waits
        = [transientBackoff 1 (jit 0), transientBackoff 2 (jit 1),
           transientBackoff 3 (jit 2), transientBackoff 4 (jit 3)] ∧
    (∀ (k : ℕ) (j : ℚ), 0 ≤ j → j < 1 →
      2 ^ k * 1000 ≤ transientBackoff k j ∧
      transientBackoff k j < 2 ^ k * 1000 + 500) ∧
    (∀ k : ℕ, transientBackoff k 0 < transientBackoff (k + 1) 0) := by
  refine ⟨?_, fun k j h0 h1 => transientBackoff_bounds k j h0 h1,
    fun k => transientBackoff_strictMono k⟩
  rw [inner_transient op jit nkeys 0 0 e hop hhard hrot]

/-- Witness for C5 on a concrete transient failure. -/
theorem C5_transient_backoff_witness :
    (withRateLimitHandling transientOp zeroJit 1 0 0).waits
        = [transientBackoff 1 (zeroJit 0), transientBackoff 2 (zeroJit 1),
           transientBackoff 3 (zeroJit 2), transientBackoff 4 (zeroJit 3)] ∧
    (2 ^ 3 * 1000 ≤ transientBackoff 3 (1 / 2) ∧
      transientBackoff 3 (1 / 2) < 2 ^ 3 * 1000 + 500) ∧
    transientBackoff 2 0 < transientBackoff 3 0 :=
  ⟨(C5_transient_backoff transientOp zeroJit 1
      (fun _ => "internal server error") (fun _ => rfl)
      (fun _ => notHard_of_transientMsg) (fun _ => notRot_of_transientMsg)).1,
   (C5_transient_backoff transientOp zeroJit 1
      (fun _ => "internal server error") (fun _ => rfl)
      (fun _ => notHard_of_transientMsg) (fun _ => notRot_of_transientMsg)).2.1
      3 (1 / 2) (by norm_num) (by norm_num),
   (C5_transient_backoff transientOp zeroJit 1
      (fun _ => "internal server error") (fun _ => rfl)
      (fun _ => notHard_of_transientMsg) (fun _ => notRot_of_transientMsg)).2.2
      2⟩

/-! ### Claim C6 -/

/-- C6: with an empty credential pool after reload, getCurrentKey fails
with the configuration error (whose text names the missing API key), and
the executor propagates exactly that error with zero invocations of the
underlying operation. -/
theorem C6_empty_pool {R : Type} (op : ℕ → Except String R) (jit : ℕ → ℚ)
    (r : ℕ) (cfg : Config) (s : KMState) (hK0 : newKeysOf cfg = []) :
    getCurrentKey r cfg s = .error keyNotFoundMsg ∧
    strContains (lowerStr keyNotFoundMsg) "api key not found" = true ∧
    executeWithKeyRotation op jit r cfg s
      = ⟨.error keyNotFoundMsg, ⟨[], s.currentIndex, s.initialized⟩,
         0, 0, 1, 0, []⟩ := by
  refine ⟨?_, by decide, exec_empty op jit r cfg s hK0⟩
  unfold getCurrentKey
  rw [loadKeys_empty r cfg s hK0]
  rfl

/-- Witness for C6 on the empty configuration. -/
theorem C6_empty_pool_witness :
    getCurrentKey 0 emptyCfg freshState = .error keyNotFoundMsg ∧
    strContains (lowerStr keyNotFoundMsg) "api key not found" = true ∧
    executeWithKeyRotation rate429Op zeroJit 0 emptyCfg freshState
      = ⟨.error keyNotFoundMsg, ⟨[], 0, false⟩, 0, 0, 1, 0, []⟩ :=
  C6_empty_pool rate429Op zeroJit 0 emptyCfg freshState rfl

/-! ### Claim C7 -/

/-- C7: reload is idempotent. A second reload with unchanged configuration
leaves the active index at its value after the first reload and is
independent of the fresh random draw; moreover once the initialized flag is
set the result of any reload never depends on the random draw, and the
flag never resets, so the random initialization happens at most once per
process lifetime. -/
theorem C7_reload_idempotent (r r₁ r₂ : ℕ) (cfg : Config) (s : KMState) :
    (loadKeys r₁ cfg (loadKeys r cfg s)).currentIndex
        = (loadKeys r cfg s).currentIndex ∧
    loadKeys r₁ cfg (loadKeys r cfg s) = loadKeys r₂ cfg (loadKeys r cfg s) ∧
    (∀ (cfg' : Config) (s' : KMState), s'.initialized = true →
      loadKeys r₁ cfg' s' = loadKeys r₂ cfg' s') ∧
    (∀ (cfg' : Config) (s' : KMState), s'.initialized = true →
      (loadKeys r₁ cfg' s').initialized = true) := by
  refine ⟨?_, ?_, fun cfg' s' h => loadKeys_indep r₁ r₂ cfg' s' h,
    fun cfg' s' h => loadKeys_init_keep r₁ cfg' s' h⟩
  · by_cases hk : 0 < (newKeysOf cfg).length
    · have h0 : (loadKeys r cfg s).initialized = true :=
        loadKeys_init_true r cfg s hk
      have h1 : (loadKeys r cfg s).currentIndex < (newKeysOf cfg).length :=
        loadKeys_lt r cfg s hk
      rw [loadKeys_stable r₁ cfg (loadKeys r cfg s) h0 h1]
    · have hnil : newKeysOf cfg = [] := List.length_eq_zero.mp (by omega)
      rw [loadKeys_empty r₁ cfg _ hnil]
  · by_cases hk : 0 < (newKeysOf cfg).length
    · exact loadKeys_indep r₁ r₂ cfg _ (loadKeys_init_true r cfg s hk)
    · have hnil : newKeysOf cfg = [] := List.length_eq_zero.mp (by omega)
      rw [loadKeys_empty r₁ cfg _ hnil, loadKeys_empty r₂ cfg _ hnil]

/-- Witness for C7 at concrete inputs. -/
theorem C7_reload_idempotent_witness :
    (loadKeys 1 twoKeyCfg (loadKeys 0 twoKeyCfg freshState)).currentIndex
        = (loadKeys 0 twoKeyCfg freshState).currentIndex ∧
    loadKeys 1 twoKeyCfg (loadKeys 0 twoKeyCfg freshState)
        = loadKeys 2 twoKeyCfg (loadKeys 0 twoKeyCfg freshState) ∧
    loadKeys 1 emptyCfg ⟨["key-one"], 0, true⟩
        = loadKeys 2 emptyCfg ⟨["key-one"], 0, true⟩ ∧
    (loadKeys 1 emptyCfg ⟨["key-one"], 0, true⟩).initialized = true :=
  ⟨(C7_reload_idempotent 0 1 2 twoKeyCfg freshState).1,
   (C7_reload_idempotent 0 1 2 twoKeyCfg freshState).2.1,
   (C7_reload_idempotent 0 1 2 twoKeyCfg freshState).2.2.1 emptyCfg
     ⟨["key-one"], 0, true⟩ rfl,
   (C7_reload_idempotent 0 1 2 twoKeyCfg freshState).2.2.2 emptyCfg
     ⟨["key-one"], 0, true⟩ rfl⟩

/-! ### Claim C8 -/

/-- C8: when a call on the default flash-tier model fails terminally with a
quota-classified error, callModel retries the whole call once against the
fixed fallback model and, when that run succeeds, returns its result
without surfacing the intermediate failure; for every other gemini model
the result of the single executor run is returned unchanged. -/
theorem C8_flash_fallback {R : Type} (op : String → ℕ → Except String R)
    (jit : ℕ → ℚ) (r : ℕ) (cfg : Config) (s : KMState) (e : ℕ → String)
    (v : R) (hN1 : 1 ≤ (newKeysOf cfg).length)
    (hop : ∀ n, op defaultFlashModel n = .error (e n))
    (hhard : ∀ n, isHardQuotaZero (e n) = false)
    (hrot : ∀ n, isRotationTrigger (e n) = true)
    (hfb : ∀ n, op fallbackModel n = .ok v) :
    (callModel op jit r cfg s defaultFlashModel).res = .ok v ∧
    (∀ model : String, startsList "gemini-".data model.data = true →
      model ≠ defaultFlashModel →
      (callModel op jit r cfg s model).res
        = (executeWithKeyRotation (op model) jit r cfg s).res) := by
  constructor
  · have hpre : startsList "gemini-".data defaultFlashModel.data = true := by
      decide
    have hM : ∃ M,
        (executeWithKeyRotation (op defaultFlashModel) jit r cfg s).res
          = .error M ∧ isQuotaExhausted M = true := by
      rcases Nat.lt_or_ge (newKeysOf cfg).length 2 with hlt | hge
      · have hK1 : (newKeysOf cfg).length = 1 := by omega
        exact ⟨allExhaustPrefix
            ++ lowerStr (innerExhaustPrefix ++ lowerStr (e 4)),
          by rw [exec_single_rot (op defaultFlashModel) jit r cfg s e hK1 hop
              hhard hrot],
          quotaExhausted_of_allExhaust _⟩
      · exact ⟨_, (exec_allrot_multi (op defaultFlashModel) jit r cfg s e hge
          hop hhard hrot).1, quotaExhausted_of_loopMsg⟩
    obtain ⟨M, hM1, hM2⟩ := hM
    have hfb0 := exec_ok_first (op fallbackModel) jit r cfg
      (executeWithKeyRotation (op defaultFlashModel) jit r cfg s).km v (hfb 0)
      (by omega)
    simp [callModel, hpre, hM1, hM2, hfb0]
  · intro model hpre hne
    cases hres : (executeWithKeyRotation (op model) jit r cfg s).res with
    | ok v' => simp [callModel, hpre, hres]
    | error e' => simp [callModel, hpre, hres, hne]

/-- Witness for C8 with a one-key pool and an operation that succeeds only
on the fallback model. -/
theorem C8_flash_fallback_witness :
    (callModel fallbackOkOp zeroJit 0 oneKeyCfg freshState defaultFlashModel).res
        = .ok () ∧
    (callModel fallbackOkOp zeroJit 0 oneKeyCfg freshState "gemini-1.5-pro").res
        = (executeWithKeyRotation (fallbackOkOp "gemini-1.5-pro") zeroJit 0
            oneKeyCfg freshState).res :=
  ⟨(C8_flash_fallback fallbackOkOp zeroJit 0 oneKeyCfg freshState
      (fun _ => "429 resource exhausted") () (by decide) (fun _ => rfl)
      (fun _ => notHard_of_429Msg) (fun _ => rot_of_429Msg)
      (fun _ => rfl)).1,
   (C8_flash_fallback fallbackOkOp zeroJit 0 oneKeyCfg freshState
      (fun _ => "429 resource exhausted") () (by decide) (fun _ => rfl)
      (fun _ => notHard_of_429Msg) (fun _ => rot_of_429Msg)
      (fun _ => rfl)).2 "gemini-1.5-pro" (by decide) (by decide)⟩

/-! ### Claim C9 -/

/-- C9: after a reload the active index is in bounds whenever the pool is
non-empty; rotate advances the index to (index + 1) mod size and returns
true exactly when the pool holds at least 2 credentials, and returns false
leaving the state unchanged otherwise. -/
theorem C9_pool_invariant :
    (∀ (r : ℕ) (cfg : Config) (s : KMState), (loadKeys r cfg s).keys ≠ [] →
      (loadKeys r cfg s).currentIndex < (loadKeys r cfg s).keys.length) ∧
    (∀ s : KMState, s.currentIndex < s.keys.length →
      ((rotate s).2).currentIndex < ((rotate s).2).keys.length) ∧
    (∀ s : KMState, 2 ≤ s.keys.length →
      rotate s = (true,
        ⟨s.keys, (s.currentIndex + 1) % s.keys.length, s.initialized⟩)) ∧
    (∀ s : KMState, s.keys.length < 2 → rotate s = (false, s)) := by
  refine ⟨?_, fun s h => rotate_lt s h, ?_, ?_⟩
  · intro r cfg s hne
    rw [loadKeys_keys] at hne ⊢
    exact loadKeys_lt r cfg s (List.length_pos.mpr hne)
  · intro s h
    unfold rotate
    rw [if_neg (by omega)]
  · intro s h
    unfold rotate
    rw [if_pos (by omega)]

/-- Witness for C9 at concrete pool states. -/
theorem C9_pool_invariant_witness :
    ((loadKeys 0 twoKeyCfg freshState).currentIndex
        < (loadKeys 0 twoKeyCfg freshState).keys.length) ∧
    rotate ⟨["key-one", "key-two"], 0, true⟩
        = (true, ⟨["key-one", "key-two"], (0 + 1) % 2, true⟩) ∧
    rotate ⟨["key-one"], 0, true⟩ = (false, ⟨["key-one"], 0, true⟩) :=
  ⟨C9_pool_invariant.1 0 twoKeyCfg freshState (by decide),
   C9_pool_invariant.2.2.1 ⟨["key-one", "key-two"], 0, true⟩ (by decide),
   C9_pool_invariant.2.2.2 ⟨["key-one"], 0, true⟩ (by decide)⟩

/-! ### Claim C10 -/

/-- C10: for a model identifier that does not start with gemini-, callModel
fails immediately with the unsupported-model error: the operation is never
invoked, no outer attempt or rotation happens, no wait is performed, and
the KeyManager state is returned unchanged. -/
theorem C10_unsupported_model {R : Type} (op : String → ℕ → Except String R)
    (jit : ℕ → ℚ) (r : ℕ) (cfg : Config) (s : KMState) (model : String)
    (h : startsList "gemini-".data model.data = false) :
    callModel op jit r cfg s model
      = ⟨.error ("Unsupported model: " ++ model), s, 0, 0, 0, 0, []⟩ := by
  simp [callModel, h]

/-- Witness for C10 on a non-gemini model name. -/
theorem C10_unsupported_model_witness :
    callModel fallbackOkOp zeroJit 0 oneKeyCfg freshState "gpt-4o"
      = ⟨.error ("Unsupported model: " ++ "gpt-4o"), freshState,
         0, 0, 0, 0, []⟩ :=
  C10_unsupported_model fallbackOkOp zeroJit 0 oneKeyCfg freshState "gpt-4o"
    (by decide)

end MFC
